import Mathlib

/-!
Shallow embedding of the GlobalNewsPulse article ingestion / storage /
serving subsystem (server/storage.ts, server/seed-articles.ts,
server/background-fetch.ts and the Express route handlers in
server/routes.ts), together with proofs about the claims of the
specification.

Conventions of the embedding:
* JavaScript optional string fields are modelled as `String` with `""`
  standing for an absent (`undefined`/`null`) value; this is faithful to
  every use in the sources, all of which read such fields through the
  falsy-coalescing operator `||`, which treats `""` and `undefined` alike.
* Timestamps (`Date.now()`, `createdAt`) are natural numbers.
* Fallible external calls (the OpenAI content enhancer, the database
  driver, racing timers) are modelled by explicit outcome values passed to
  the embedded control flow.
-/

namespace GNP

/-- JS `s || d` for strings: the empty string is falsy. -/
def jsOrS (s d : String) : String := if s = "" then d else s

/-- JS `s || null` for a nullable string column (`MemStorage.createArticle`
writes `insertArticle.sourceUrl || null`). -/
def strOrNone (s : String) : Option String := if s = "" then none else some s

/-- JS `n || null` for a nullable integer column (`0` is falsy). -/
def natOrNone : Option Nat → Option Nat
  | some 0 => none
  | x => x

/-- JS `String.prototype.toUpperCase()` restricted to ASCII (the only
strings compared by these code paths): upper-case character by character. -/
def jsToUpperCase (s : String) : String := String.mk (s.data.map Char.toUpper)

/-- JS `String.prototype.trim()`: strip whitespace from both ends. -/
def jsTrim (s : String) : String :=
  String.mk (((s.data.dropWhile Char.isWhitespace).reverse.dropWhile
    Char.isWhitespace).reverse)

/-- Matcher for the regular expression `\[\+\d+ chars\]$` of
`seed-articles.ts`, applied to the reversed character list: the reversed
suffix must read `]srahc ` followed by at least one digit, then `+[`.
Returns the remaining (still reversed) characters when the marker matches. -/
def truncMarkerRev : List Char → Option (List Char)
  | ']' :: 's' :: 'r' :: 'a' :: 'h' :: 'c' :: ' ' :: rest =>
      let ds := rest.takeWhile Char.isDigit
      let rest2 := rest.dropWhile Char.isDigit
      if ds.isEmpty then none
      else
        match rest2 with
        | '+' :: '[' :: rest3 => some rest3
        | _ => none
  | _ => none

/-- Model of the replacement `content.replace` with pattern
`\[\+\d+ chars\]$`: strip a trailing NewsAPI truncation marker such as `[+1234 chars]`. -/
def stripTruncMarker (s : String) : String :=
  match truncMarkerRev s.data.reverse with
  | some rest => String.mk rest.reverse
  | none => s

/-- The cleaned content of the AI-failure fallback in
`processAndStoreArticles`: strip the trailing truncation marker, then trim. -/
def cleanContent (s : String) : String := jsTrim (stripTruncMarker s)

/-- A persisted news article (row of the `articles` table /
`MemStorage.articles` entry). -/
structure Article where
  id : Nat
  title : String
  originalContent : String
  aiEnhancedContent : Option String
  summary : String
  country : String
  category : String
  sourceUrl : Option String
  sourceApi : String
  originalJson : Option String
  createdAt : Nat
  authorId : Option Nat
  deriving Repr, DecidableEq

/-- The fields passed to `storage.createArticle` (`InsertArticle`).
`sourceUrl` and `originalJson` are given as strings with `""` for a missing
value; `createArticle` applies the `|| null` normalisation of the source. -/
structure InsertArticle where
  title : String
  originalContent : String
  summary : String
  country : String
  category : String
  sourceUrl : String
  sourceApi : String
  originalJson : String
  authorId : Option Nat
  deriving Repr, DecidableEq

/-- State of `MemStorage`: the article map (a JS `Map` iterated in insertion
order, modelled as a list in insertion order) and the id counter. -/
structure MemStorage where
  articles : List Article
  currentArticleId : Nat
  deriving Repr, DecidableEq

/-- Model of `MemStorage.createArticle`: assign the next id, set `createdAt`, start
with `aiEnhancedContent = null`, normalise the falsy optional fields with
`|| null`. -/
def MemStorage.createArticle (st : MemStorage) (ins : InsertArticle)
    (now : Nat) : MemStorage × Article :=
  let a : Article :=
    { id := st.currentArticleId
      title := ins.title
      originalContent := ins.originalContent
      aiEnhancedContent := none
      summary := ins.summary
      country := ins.country
      category := ins.category
      sourceUrl := strOrNone ins.sourceUrl
      sourceApi := ins.sourceApi
      originalJson := strOrNone ins.originalJson
      createdAt := now
      authorId := natOrNone ins.authorId }
  (⟨st.articles ++ [a], st.currentArticleId + 1⟩, a)

/-- Model of `MemStorage.updateArticle` specialised to the only update the ingestion
code ever performs: setting `aiEnhancedContent` (every call site in
`seed-articles.ts` and `routes.ts` passes exactly
`{ aiEnhancedContent: ... }`). -/
def MemStorage.updateAi (st : MemStorage) (id : Nat) (content : String) :
    MemStorage :=
  { st with
    articles := st.articles.map fun a =>
      if a.id = id then { a with aiEnhancedContent := some content } else a }

/-- Model of `MemStorage.getArticleById`. -/
def MemStorage.getArticleById (st : MemStorage) (id : Nat) : Option Article :=
  st.articles.find? fun a => a.id == id

/-- Model of `MemStorage.getArticleByUrl`: first article whose stored `sourceUrl`
strictly equals the given url (`article.sourceUrl === url`; a `null`
`sourceUrl` never equals a string). -/
def MemStorage.getArticleByUrl (st : MemStorage) (url : String) :
    Option Article :=
  st.articles.find? fun a => a.sourceUrl == some url

/-- One step of the stable insertion used to model
`filteredArticles.sort((a, b) => b.createdAt.getTime() - a.createdAt.getTime())`
(ECMAScript `Array.prototype.sort` is stable): insert `a` before the first
element with a strictly smaller `createdAt`. -/
def insertDesc (a : Article) : List Article → List Article
  | [] => [a]
  | b :: rest =>
      if b.createdAt < a.createdAt then a :: b :: rest
      else b :: insertDesc a rest

/-- Stable sort by `createdAt`, newest first. -/
def sortByCreatedAtDesc (l : List Article) : List Article :=
  l.foldl (fun acc a => insertDesc a acc) []

/-- Country predicate of `MemStorage.getArticles`: with filter `country`
present (truthy), the filter matches case-insensitively; a filter that
upper-cases to `GLOBAL` selects the `GLOBAL` / `GLOBAL-TRENDING` union. -/
def memCountryMatch (c : String) (a : Article) : Bool :=
  if jsToUpperCase c = "GLOBAL" then
    jsToUpperCase a.country = "GLOBAL" || jsToUpperCase a.country = "GLOBAL-TRENDING"
  else
    jsToUpperCase a.country = jsToUpperCase c

/-- Model of `MemStorage.getArticles`: filter by country (skipped when the filter is
absent or falsy), sort by `createdAt` descending, apply the
`(page-1)*pageSize` offset and `pageSize` limit; `totalCount` is the number
of articles passing the filter. -/
def MemStorage.getArticles (st : MemStorage) (country : Option String)
    (page pageSize : Nat) : List Article × Nat :=
  let offset := (page - 1) * pageSize
  let filtered :=
    match country with
    | none => st.articles
    | some c => if c = "" then st.articles
                else st.articles.filter (memCountryMatch c)
  let sorted := sortByCreatedAtDesc filtered
  ((sorted.drop offset).take pageSize, filtered.length)

/-- A raw article received from the upstream fetch collaborator. Absent
fields are `""` (see the module conventions). -/
structure RawArticle where
  title : String
  description : String
  content : String
  url : String
  country : String
  category : String
  deriving Repr, DecidableEq

/-- Outcome of one `generateArticleContent` call: either the structured
result `{enhancedTitle, articleContent, summary}`, or a thrown error
(network failure, timeout, malformed response). -/
inductive EnhanceResult where
  | success (enhancedTitle articleContent summary : String)
  | failure
  deriving Repr, DecidableEq

/-- Stand-in for `JSON.stringify(rawArticle)`. Its exact format is
irrelevant to every verified claim (it only ever feeds the opaque
`originalContent` / `originalJson` audit fields). -/
def serializeRaw (r : RawArticle) : String :=
  r.title ++ "|" ++ r.description ++ "|" ++ r.content ++ "|" ++ r.url

/-- The effective title used by `processAndStoreArticles`:
`rawArticle.title || \x60News about $\x7btopic || category\x7d\x60`. -/
def seedTitle (raw : RawArticle) (category topic : String) : String :=
  jsOrS raw.title ("News about " ++ jsOrS topic category)

/-- The duplicate check of `processAndStoreArticles`: a URL hit via
`storage.getArticleByUrl` when `rawArticle.url` is truthy, otherwise an
exact (`eq`) title match against the stored articles. -/
def dedupExists (st : MemStorage) (raw : RawArticle) (title : String) :
    Bool :=
  let byUrl := if raw.url = "" then false
               else (st.getArticleByUrl raw.url).isSome
  byUrl || st.articles.any fun a => a.title == title

/-- One iteration of the `processAndStoreArticles` loop of
`seed-articles.ts` for a single raw article.

* If the duplicate check hits, the item is skipped.
* On enhancer success the enhanced article is stored
  (`title := enhancedTitle`, `summary := generated.summary`) and then
  updated with `aiEnhancedContent := generated.articleContent`. The
  `generateArticleVariants` / `analyzeArticle` enrichment calls only feed
  the opaque `originalJson` payload and are absorbed into `serializeRaw`.
* On enhancer failure the fallback stores the raw article with
  `summary := rawArticle.description || "No summary available"` and then
  sets `aiEnhancedContent` to the cleaned raw content. -/
def processOne (st : MemStorage) (raw : RawArticle)
    (category country topic : String) (enh : EnhanceResult) (now : Nat) :
    MemStorage :=
  let title := seedTitle raw category topic
  if dedupExists st raw title then st
  else
    match enh with
    | .success enhancedTitle articleContent summ =>
        let created := st.createArticle
          { title := enhancedTitle
            originalContent := serializeRaw raw
            summary := summ
            country := country
            category := category
            sourceUrl := raw.url
            sourceApi := "NewsAPI"
            originalJson := serializeRaw raw
            authorId := some 1 } now
        created.1.updateAi created.2.id articleContent
    | .failure =>
        let content := jsOrS raw.content (jsOrS raw.description
          "Article content unavailable")
        let created := st.createArticle
          { title := title
            originalContent := serializeRaw raw
            summary := jsOrS raw.description "No summary available"
            country := country
            category := category
            sourceUrl := raw.url
            sourceApi := "NewsAPI"
            originalJson := serializeRaw raw
            authorId := some 1 } now
        created.1.updateAi created.2.id (cleanContent content)

/-- Model of `processAndStoreArticles` over a batch: each element comes with the
outcome of its `generateArticleContent` call; wall-clock creation times are
modelled by `now + index`. Per-item failures never abort the loop. -/
def processAndStoreArticles (st : MemStorage)
    (items : List (RawArticle × EnhanceResult))
    (category country topic : String) (now : Nat) : MemStorage :=
  match items with
  | [] => st
  | (raw, enh) :: rest =>
      processAndStoreArticles (processOne st raw category country topic enh now)
        rest category country topic (now + 1)

/-- One iteration of the `POST /api/news/batch` loop: `generateArticleContent`
is awaited first (no duplicate check of any kind), then the article is
stored and updated with the enhanced content. A thrown enhancer error
escapes to the catch of the handler (`none`), aborting the rest of the batch. -/
def batchStep (st : MemStorage) (raw : RawArticle) (sourceApi : String)
    (enh : EnhanceResult) (now : Nat) : Option (MemStorage × Article) :=
  match enh with
  | .failure => none
  | .success _ articleContent _ =>
      let created := st.createArticle
        { title := raw.title
          summary := raw.description
          sourceUrl := raw.url
          sourceApi := sourceApi
          country := jsOrS raw.country "GLOBAL"
          category := jsOrS raw.category "general"
          originalContent := jsOrS raw.content raw.description
          originalJson := serializeRaw raw
          authorId := none } now
      some (created.1.updateAi created.2.id articleContent, created.2)

/-- The `POST /api/news/batch` handler body: processes the list in order,
collecting the created articles; the first enhancer throw hits the catch of the handler, which answers 400 but leaves the already-created articles stored.
Returns the final store, the HTTP status and the reported created list. -/
def batchHandler (st : MemStorage) (sourceApi : String)
    (items : List (RawArticle × EnhanceResult)) (now : Nat) :
    MemStorage × Nat × List Article :=
  match items with
  | [] => (st, 201, [])
  | (raw, enh) :: rest =>
      match batchStep st raw sourceApi enh now with
      | none => (st, 400, [])
      | some (st1, a) =>
          match batchHandler st1 sourceApi rest (now + 1) with
          | (st2, 201, as) => (st2, 201, a :: as)
          | (st2, s, _) => (st2, s, [])

/-- The named HTML entities replaced by `decodeHtmlEntities` in
`routes.ts`, in `Object.entries` (insertion) order. -/
def namedEntities : List (String × String) :=
  [("&quot;", "\""), ("&apos;", "\x27"), ("&#039;", "\x27"),
   ("&lt;", "<"), ("&gt;", ">"), ("&amp;", "&"), ("&nbsp;", " ")]

/-- Digit-run value, as `parseInt(dec, 10)` of a numeric entity. -/
def digitsVal (ds : List Char) : Nat :=
  ds.foldl (fun n c => n * 10 + (c.toNat - 48)) 0

/-- JS `String.fromCharCode` truncates its argument to a UTF-16 code unit;
code points that are not valid Lean `Char`s (lone surrogates) degrade to
`\0`, which no claim observes. -/
def fromCharCode (n : Nat) : Char := Char.ofNat (n % 65536)

/-- Replacement of numeric entities `&#ddd;` (`/&#(\d+);/g`). -/
def decodeNumeric : List Char → List Char
  | [] => []
  | '&' :: '#' :: rest =>
      if (rest.takeWhile Char.isDigit).isEmpty then
        '&' :: decodeNumeric ('#' :: rest)
      else
        match h : rest.dropWhile Char.isDigit with
        | ';' :: rest3 =>
            fromCharCode (digitsVal (rest.takeWhile Char.isDigit)) ::
              decodeNumeric rest3
        | _ => '&' :: decodeNumeric ('#' :: rest)
  | c :: rest => c :: decodeNumeric rest
  termination_by l => l.length
  decreasing_by
    all_goals first
    | (simp only [List.length_cons]; omega)
    | (have h2 : ∀ l : List Char,
           (l.dropWhile Char.isDigit).length ≤ l.length := by
         intro l
         induction l with
         | nil => simp [List.dropWhile]
         | cons a l ih =>
             simp only [List.dropWhile]
             split
             · exact Nat.le_trans ih (Nat.le_succ _)
             · simp
       have h3 := h2 rest
       rw [h] at h3
       simp only [List.length_cons] at h3 ⊢
       omega)

/-- Model of `decodeHtmlEntities` of `routes.ts`: named entities first (in table
order), then numeric entities. -/
def decodeHtmlEntities (text : String) : String :=
  if text = "" then ""
  else
    let decoded := namedEntities.foldl (fun acc p => acc.replace p.1 p.2) text
    String.mk (decodeNumeric decoded.data)

/-- The per-article response mapping of the `GET /api/articles` handler:
decode HTML entities in `title` and `summary`, and rewrite `country` to
`"GLOBAL"` for articles whose `sourceApi` is `"Newsroom API"`. -/
def mapListedArticle (a : Article) : Article :=
  { a with
    title := decodeHtmlEntities a.title
    summary := decodeHtmlEntities a.summary
    country := if a.sourceApi = "Newsroom API" then "GLOBAL" else a.country }

/-- JS `Math.ceil(totalCount / pageSize)` on naturals. -/
def natCeilDiv (n k : Nat) : Nat := (n + k - 1) / k

/-- Pagination metadata of the listing response. -/
structure PaginationMeta where
  page : Nat
  pageSize : Nat
  totalCount : Nat
  totalPages : Nat
  deriving Repr, DecidableEq

/-- A listing response: HTTP status plus JSON payload. -/
structure ListingResponse where
  status : Nat
  articles : List Article
  pagination : PaginationMeta
  deriving Repr, DecidableEq

/-- How the storage query of `GET /api/articles` can resolve: with a result,
with a rejection absorbed by the inner catch, by losing the 10-second
`Promise.race` against the timeout, or with the outer catch firing. -/
inductive RouteQueryOutcome where
  | ok (articles : List Article) (totalCount : Nat)
  | storeError
  | timedOut
  | handlerError
  deriving Repr, DecidableEq

/-- The `GET /api/articles` handler: every outcome is answered with status
200; a store rejection or a lost race degrades to the empty payload, the
outer catch answers the fixed empty page-1 payload. -/
def articlesRoute (page pageSize : Nat) (out : RouteQueryOutcome) :
    ListingResponse :=
  match out with
  | .handlerError => ⟨200, [], ⟨1, 30, 0, 0⟩⟩
  | .ok l n =>
      ⟨200, l.map mapListedArticle, ⟨page, pageSize, n, natCeilDiv n pageSize⟩⟩
  | .storeError => ⟨200, [], ⟨page, pageSize, 0, natCeilDiv 0 pageSize⟩⟩
  | .timedOut => ⟨200, [], ⟨page, pageSize, 0, natCeilDiv 0 pageSize⟩⟩

/-- Outcome of an awaited database call. -/
inductive DbOutcome (α : Type) where
  | ok (a : α)
  | dbError
  deriving Repr, DecidableEq

/-- Model of `DatabaseStorage.getArticleById`: a driver error is caught and turned
into `undefined`. -/
def getArticleByIdResult (out : DbOutcome (Option Article)) : Option Article :=
  match out with
  | .ok r => r
  | .dbError => none

/-- The `GET /api/articles/:id` handler: 400 on an unparsable id, 404 when
the (error-absorbing) storage lookup finds nothing, 200 otherwise. -/
def articleDetailRoute (idParam : Option Nat)
    (out : DbOutcome (Option Article)) : Nat × Option Article :=
  match idParam with
  | none => (400, none)
  | some _ =>
      match getArticleByIdResult out with
      | none => (404, none)
      | some a => (200, some a)

/-- Resolution of one sub-query raced against its `setTimeout` rejection in
`DatabaseStorage.getArticles`: either the query resolves first, or the
timer fires first. -/
inductive QOutcome (α : Type) where
  | ok (a : α)
  | timedOut
  deriving Repr, DecidableEq

/-- The paginated result shape of `DatabaseStorage.getArticles`. -/
structure PagedResult where
  articles : List Article
  totalCount : Nat
  totalPages : Nat
  page : Nat
  pageSize : Nat
  deriving Repr, DecidableEq

/-- Control flow of `DatabaseStorage.getArticles` over the three raced
sub-queries: the 2-second quick count (a timeout of which merely continues),
the 5-second items query (a timeout of which degrades to the empty result),
and the 5-second total count (a timeout of which falls back to
`results.length`). -/
def dbGetArticles (page pageSize : Nat) (quick : QOutcome Nat)
    (items : QOutcome (List Article)) (cnt : QOutcome Nat) : PagedResult :=
  match quick with
  | .ok 0 => ⟨[], 0, 0, page, pageSize⟩
  | _ =>
      match items with
      | .timedOut => ⟨[], 0, 0, page, pageSize⟩
      | .ok results =>
          let totalCount :=
            match cnt with
            | .ok n => n
            | .timedOut => results.length
          ⟨results, totalCount, natCeilDiv totalCount pageSize, page, pageSize⟩

/-- The fixed country rotation of `background-fetch.ts`. -/
def ALL_COUNTRIES : List String :=
  ["ae", "ar", "at", "au", "be", "bg", "br", "ca", "ch", "cn", "co", "cu",
   "cz", "de", "eg", "fr", "gb", "gr", "hk", "hu", "id", "ie", "il", "in",
   "it", "jp", "kr", "lt", "lv", "ma", "mx", "my", "ng", "nl", "no", "nz",
   "ph", "pl", "pt", "ro", "rs", "ru", "sa", "se", "sg", "si", "sk", "th",
   "tr", "tw", "ua", "us", "ve", "za"]

/-- Outcome of one `fetchNewsForCountry` call. The function catches every
error internally (log-and-return), so the outcome never reaches the
interval callback of the scheduler. -/
inductive FetchOutcome where
  | success (articleCount : Nat)
  | error
  deriving Repr, DecidableEq

/-- Mutable scheduler state of `background-fetch.ts`: `lastNewsApiFetch`
and `currentCountryIndex`. -/
structure FetchState where
  lastFetchAt : Nat
  currentCountryIndex : Nat
  deriving Repr, DecidableEq

/-- One firing of the News-API `setInterval` callback at time `now` with the
given fetch outcome: if at least 60000 ms have passed since the last fetch,
issue a fetch for the country at the cursor, advance the cursor modulo the
rotation length and stamp `lastFetchAt := now`. The issued country (if any)
is returned; the fetch outcome is unused because `fetchNewsForCountry`
absorbs its own errors. -/
def newsApiTick (st : FetchState) (now : Nat) (_outcome : FetchOutcome) :
    FetchState × Option String :=
  if 60000 ≤ now - st.lastFetchAt then
    (⟨now, (st.currentCountryIndex + 1) % ALL_COUNTRIES.length⟩,
     some (ALL_COUNTRIES.getD st.currentCountryIndex ""))
  else (st, none)

/-- Run a sequence of interval firings, given for each its wall-clock time
and its fetch outcome; collects the issued fetch arguments in order. -/
def runTicks (st : FetchState) :
    List (Nat × FetchOutcome) → FetchState × List String
  | [] => (st, [])
  | (t, o) :: rest =>
      let step := newsApiTick st t o
      let later := runTicks step.1 rest
      (later.1, step.2.toList ++ later.2)

/-- Number of stored articles whose `sourceUrl` equals the given url. -/
def countByUrl (st : MemStorage) (u : String) : Nat :=
  st.articles.countP fun a => a.sourceUrl == some u

/-- A concrete stored article whose country is `GLOBAL-TRENDING`. -/
def trendingArticle : Article :=
  { id := 1, title := "t", originalContent := "o", aiEnhancedContent := none
    summary := "s", country := "GLOBAL-TRENDING", category := "trending"
    sourceUrl := none, sourceApi := "NewsAPI", originalJson := none
    createdAt := 10, authorId := none }

/-- A concrete store of 65 articles with pairwise distinct `createdAt`
stamps (the pagination example of the specification). -/
def store65 : MemStorage :=
  ⟨(List.range 65).map fun i =>
    { id := i + 1, title := "T", originalContent := "o"
      aiEnhancedContent := none, summary := "s", country := "US"
      category := "general", sourceUrl := none, sourceApi := "NewsAPI"
      originalJson := none, createdAt := i, authorId := none }, 66⟩

/-- A concrete raw article carrying a non-empty url. -/
def rawWithUrl : RawArticle :=
  { title := "X", description := "Y", content := "", url := "http://a"
    country := "", category := "" }

/-- A concrete raw article with an absent (empty) description. -/
def rawNoDescription : RawArticle :=
  { title := "X", description := "", content := "c", url := "http://b"
    country := "", category := "" }

/-- A concrete raw article with an absent url. -/
def rawNoUrl : RawArticle :=
  { title := "Same headline", description := "d"
    content := "body text [+123 chars]", url := "", country := ""
    category := "" }

/-- The regular `setInterval` schedule: `n` firing times spaced exactly
one 60000 ms interval apart, starting at `start`. -/
def regularTimes (start : Nat) : Nat → List Nat
  | 0 => []
  | n + 1 => start :: regularTimes (start + 60000) n

/-- The expected fetch arguments of `n` consecutive firing ticks starting
with the cursor at `c`: walk `ALL_COUNTRIES` from `c`, wrapping modulo its
length. -/
def rotationFrom (c : Nat) : Nat → List String
  | 0 => []
  | n + 1 =>
      ALL_COUNTRIES.getD c "" ::
        rotationFrom ((c + 1) % ALL_COUNTRIES.length) n

/-- A concrete tick schedule for the scheduler: one firing per minute,
alternating failing and succeeding fetches. -/
def c9Ticks : Nat → Nat → List (Nat × FetchOutcome)
  | _, 0 => []
  | t, n + 1 =>
      (t, if n % 2 = 0 then .error else .success n) ::
        c9Ticks (t + 60000) n

/-- The store with no articles and id counter 1 (the `MemStorage`
constructor state minus the placeholder data). -/
def emptyStore : MemStorage := ⟨[], 1⟩

/-- A store already holding an article titled like `rawNoUrl`. -/
def titledStore : MemStorage :=
  ⟨[{ id := 1, title := "Same headline", originalContent := "o"
      aiEnhancedContent := none, summary := "s", country := "US"
      category := "general", sourceUrl := none, sourceApi := "NewsAPI"
      originalJson := none, createdAt := 3, authorId := none }], 2⟩

/-- Default article used with `List.getD`. -/
def blankArticle : Article :=
  { id := 0, title := "", originalContent := "", aiEnhancedContent := none
    summary := "", country := "", category := "", sourceUrl := none
    sourceApi := "", originalJson := none, createdAt := 0, authorId := none }

/-- A stored article from the Newsroom API with a non-GLOBAL country. -/
def newsroomArticle : Article :=
  { id := 9, title := "N", originalContent := "o", aiEnhancedContent := none
    summary := "s", country := "US", category := "general"
    sourceUrl := none, sourceApi := "Newsroom API", originalJson := none
    createdAt := 4, authorId := none }

/-! ### Helper lemmas -/

theorem insertDesc_perm (a : Article) (l : List Article) :
    List.Perm (insertDesc a l) (a :: l) := by
  induction l with
  | nil => exact List.Perm.refl _
  | cons b rest ih =>
      by_cases hc : b.createdAt < a.createdAt
      · simp only [insertDesc, if_pos hc]
        exact List.Perm.refl _
      · simp only [insertDesc, if_neg hc]
        exact (ih.cons b).trans (List.Perm.swap a b rest)

theorem sortAux_perm (l : List Article) :
    ∀ acc, List.Perm (l.foldl (fun acc a => insertDesc a acc) acc)
      (l ++ acc) := by
  induction l with
  | nil => intro acc; exact List.Perm.refl _
  | cons a rest ih =>
      intro acc
      have h1 := ih (insertDesc a acc)
      have h2 : List.Perm (rest ++ insertDesc a acc) (rest ++ a :: acc) :=
        List.Perm.append_left rest (insertDesc_perm a acc)
      have h3 : List.Perm (rest ++ a :: acc) (a :: (rest ++ acc)) :=
        List.perm_middle
      simp only [List.foldl_cons, List.cons_append]
      exact (h1.trans h2).trans h3

theorem sortByCreatedAtDesc_perm (l : List Article) :
    List.Perm (sortByCreatedAtDesc l) l := by
  have h := sortAux_perm l []
  simpa [sortByCreatedAtDesc] using h

theorem insertDesc_pairwise (a : Article) (l : List Article)
    (h : l.Pairwise fun x y => y.createdAt ≤ x.createdAt) :
    (insertDesc a l).Pairwise fun x y => y.createdAt ≤ x.createdAt := by
  induction l with
  | nil => simp [insertDesc]
  | cons b rest ih =>
      rw [List.pairwise_cons] at h
      obtain ⟨hb, hrest⟩ := h
      by_cases hc : b.createdAt < a.createdAt
      · rw [insertDesc, if_pos hc, List.pairwise_cons]
        refine ⟨?_, List.pairwise_cons.mpr ⟨hb, hrest⟩⟩
        intro x hx
        rcases List.mem_cons.mp hx with rfl | hx
        · exact Nat.le_of_lt hc
        · exact Nat.le_trans (hb x hx) (Nat.le_of_lt hc)
      · rw [insertDesc, if_neg hc, List.pairwise_cons]
        refine ⟨?_, ih hrest⟩
        intro x hx
        rcases List.mem_cons.mp ((insertDesc_perm a rest).mem_iff.mp hx) with
          rfl | hx
        · exact Nat.le_of_not_lt hc
        · exact hb x hx

theorem sortAux_pairwise (l : List Article) :
    ∀ acc, (acc.Pairwise fun x y => y.createdAt ≤ x.createdAt) →
      ((l.foldl (fun acc a => insertDesc a acc) acc).Pairwise
        fun x y => y.createdAt ≤ x.createdAt) := by
  induction l with
  | nil => intro acc h; simpa using h
  | cons a rest ih => intro acc h; exact ih _ (insertDesc_pairwise a acc h)

theorem sortByCreatedAtDesc_pairwise (l : List Article) :
    (sortByCreatedAtDesc l).Pairwise fun x y => y.createdAt ≤ x.createdAt :=
  sortAux_pairwise l [] (List.Pairwise.nil)

theorem sortByCreatedAtDesc_length (l : List Article) :
    (sortByCreatedAtDesc l).length = l.length :=
  (sortByCreatedAtDesc_perm l).length_eq

/-- After `createArticle` followed by the `aiEnhancedContent` update of the
fresh id, the store is the old list with one appended article, provided
all previously stored ids are below the id counter. -/
theorem createArticle_updateAi (st : MemStorage) (ins : InsertArticle)
    (now : Nat) (c : String)
    (hwf : ∀ a ∈ st.articles, a.id < st.currentArticleId) :
    ((st.createArticle ins now).1.updateAi (st.createArticle ins now).2.id
        c).articles
      = st.articles ++
        [{ (st.createArticle ins now).2 with aiEnhancedContent := some c }] := by
  simp only [MemStorage.createArticle, MemStorage.updateAi, List.map_append]
  have h1 : ∀ a ∈ st.articles,
      (if a.id = st.currentArticleId
       then { a with aiEnhancedContent := some c } else a) = id a := by
    intro a ha
    simp [Nat.ne_of_lt (hwf a ha)]
  rw [List.map_congr_left h1, List.map_id]
  simp

theorem countByUrl_updateAi (st : MemStorage) (id : Nat) (c u : String) :
    countByUrl (st.updateAi id c) u = countByUrl st u := by
  simp only [countByUrl, MemStorage.updateAi, List.countP_map]
  apply List.countP_congr
  intro a _
  by_cases h : a.id = id <;> simp [h, Function.comp]

/-- `natCeilDiv n k` is the ceiling of `n / k`: the unique multiple count
whose product with `k` lands in `[n, n + k)`. -/
theorem natCeilDiv_spec (n k : Nat) (hk : 0 < k) :
    n ≤ natCeilDiv n k * k ∧ natCeilDiv n k * k < n + k := by
  have h1 := Nat.div_add_mod (n + k - 1) k
  have h2 : (n + k - 1) % k < k := Nat.mod_lt _ hk
  unfold natCeilDiv
  rw [Nat.mul_comm] at h1
  generalize hm : (n + k - 1) / k * k = m at h1 ⊢
  omega

/-! ### Claim theorems -/

/-- C2: for every outcome of the storage calls — including rejected
promises and lost timeout races, the shapes every ordinary upstream
failure takes on these read paths — the article listing endpoint answers
200 with a well-formed (possibly empty) payload, and the single-article
endpoint answers 400, 404 or 200, never a 5xx status. -/
theorem c2_read_endpoints_never_5xx (page pageSize : Nat)
    (out : RouteQueryOutcome) (idParam : Option Nat)
    (dbOut : DbOutcome (Option Article)) :
    (articlesRoute page pageSize out).status = 200
    ∧ (articleDetailRoute idParam dbOut).1 < 500
    ∧ (out = .storeError ∨ out = .timedOut →
        (articlesRoute page pageSize out).articles = []
        ∧ (articlesRoute page pageSize out).pagination.totalCount = 0) := by
  refine ⟨?_, ?_, ?_⟩
  · cases out <;> rfl
  · rcases idParam with _ | i
    · norm_num [articleDetailRoute]
    · rcases dbOut with r | _
      · rcases r with _ | a <;>
          norm_num [articleDetailRoute, getArticleByIdResult]
      · norm_num [articleDetailRoute, getArticleByIdResult]
  · rintro (rfl | rfl) <;> exact ⟨rfl, rfl⟩

/-- Witness for C2 at concrete inputs: a rejected store query and a failed
id lookup. -/
theorem c2_read_endpoints_never_5xx_witness :
    (articlesRoute 1 30 .storeError).status = 200
    ∧ (articleDetailRoute (some 3) .dbError).1 < 500
    ∧ (articlesRoute 1 30 .storeError).articles = []
    ∧ (articlesRoute 1 30 .storeError).pagination.totalCount = 0 := by
  have h := c2_read_endpoints_never_5xx 1 30 .storeError (some 3) .dbError
  exact ⟨h.1, h.2.1, (h.2.2 (Or.inl rfl)).1, (h.2.2 (Or.inl rfl)).2⟩

/-- C7: whatever the resolution order of the raced sub-queries, the
listing read path always produces a result: a timed-out items query
degrades to the empty list with count 0, a timed-out count query degrades
to the length of the returned items, and the route-level 10-second race
answers 200 with an empty payload. (Wall-clock bounds are modelled by the
timeout outcomes of the `Promise.race` calls.) -/
theorem c7_timeboxed_listing (page pageSize : Nat) (quick : QOutcome Nat)
    (items : QOutcome (List Article)) (cnt : QOutcome Nat) :
    (items = .timedOut →
        (dbGetArticles page pageSize quick items cnt).articles = []
        ∧ (dbGetArticles page pageSize quick items cnt).totalCount = 0)
    ∧ (cnt = .timedOut →
        (dbGetArticles page pageSize quick items cnt).totalCount
          = (dbGetArticles page pageSize quick items cnt).articles.length)
    ∧ (articlesRoute page pageSize .timedOut).status = 200
    ∧ (articlesRoute page pageSize .timedOut).articles = [] := by
  refine ⟨?_, ?_, rfl, rfl⟩
  · rintro rfl
    rcases quick with n | _
    · rcases n with _ | n <;> exact ⟨rfl, rfl⟩
    · exact ⟨rfl, rfl⟩
  · rintro rfl
    rcases quick with n | _
    · rcases n with _ | n
      · rfl
      · rcases items with l | _ <;> rfl
    · rcases items with l | _ <;> rfl

/-- Witness for C7: a hanging items query and a hanging count query. -/
theorem c7_timeboxed_listing_witness :
    ((dbGetArticles 1 30 (.ok 5) .timedOut (.ok 5)).articles = []
     ∧ (dbGetArticles 1 30 (.ok 5) .timedOut (.ok 5)).totalCount = 0)
    ∧ (dbGetArticles 1 30 (.ok 5) (.ok [trendingArticle]) .timedOut).totalCount
        = (dbGetArticles 1 30 (.ok 5) (.ok [trendingArticle])
            .timedOut).articles.length :=
  ⟨(c7_timeboxed_listing 1 30 (.ok 5) .timedOut (.ok 5)).1 rfl,
   (c7_timeboxed_listing 1 30 (.ok 5) (.ok [trendingArticle]) .timedOut).2.1
     rfl⟩

/-- C10: the listing endpoint maps every returned article through
`mapListedArticle`, which rewrites `country` to `"GLOBAL"` exactly for
articles whose stored `sourceApi` is `"Newsroom API"` and leaves every
country of every other article unchanged. -/
theorem c10_newsroom_country_rewrite (l : List Article)
    (n page pageSize : Nat) :
    (articlesRoute page pageSize (.ok l n)).articles = l.map mapListedArticle
    ∧ ∀ a : Article,
        (a.sourceApi = "Newsroom API" →
          (mapListedArticle a).country = "GLOBAL")
        ∧ (a.sourceApi ≠ "Newsroom API" →
          (mapListedArticle a).country = a.country) := by
  refine ⟨rfl, fun a => ⟨fun h => ?_, fun h => ?_⟩⟩
  · simp [mapListedArticle, h]
  · simp [mapListedArticle, h]

/-- Witness for C10: a Newsroom article with stored country `US` is
reported as `GLOBAL`; a NewsAPI article keeps its stored country. -/
theorem c10_newsroom_country_rewrite_witness :
    (mapListedArticle newsroomArticle).country = "GLOBAL"
    ∧ (mapListedArticle trendingArticle).country = trendingArticle.country :=
  ⟨((c10_newsroom_country_rewrite [] 0 1 30).2 newsroomArticle).1 rfl,
   ((c10_newsroom_country_rewrite [] 0 1 30).2 trendingArticle).2
     (by decide)⟩

/-- Sorting then taking at least the whole length keeps exactly the
members of the filtered list. -/
theorem mem_sort_take (l : List Article) (k : Nat) (hk : l.length ≤ k)
    (a : Article) :
    (a ∈ ((sortByCreatedAtDesc l).drop 0).take k) ↔ a ∈ l := by
  rw [List.drop_zero,
    List.take_of_length_le (by rw [sortByCreatedAtDesc_length]; exact hk)]
  exact (sortByCreatedAtDesc_perm l).mem_iff

/-- C4 (amended): the `GLOBAL` union branch of `MemStorage.getArticles`
triggers whenever the filter upper-cases to `GLOBAL`, and matches the
stored country case-insensitively against `GLOBAL` or `GLOBAL-TRENDING`;
any other (truthy) filter matches the stored country case-insensitively;
an absent filter matches everything; results come in descending
`createdAt` order. -/
theorem c4_country_filter (st : MemStorage) (c : String) :
    (jsToUpperCase c = "GLOBAL" →
      ∀ a : Article,
        a ∈ (st.getArticles (some c) 1 st.articles.length).1 ↔
          a ∈ st.articles ∧ (jsToUpperCase a.country = "GLOBAL"
            ∨ jsToUpperCase a.country = "GLOBAL-TRENDING"))
    ∧ (c ≠ "" → jsToUpperCase c ≠ "GLOBAL" →
      ∀ a : Article,
        a ∈ (st.getArticles (some c) 1 st.articles.length).1 ↔
          a ∈ st.articles ∧ jsToUpperCase a.country = jsToUpperCase c)
    ∧ (∀ a : Article,
        a ∈ (st.getArticles none 1 st.articles.length).1 ↔ a ∈ st.articles)
    ∧ (st.getArticles (some c) 1 st.articles.length).1.Pairwise
        (fun x y => y.createdAt ≤ x.createdAt) := by
  refine ⟨?_, ?_, ?_, ?_⟩
  · intro hc a
    have hne : ¬c = "" := by
      intro h
      rw [h] at hc
      exact absurd hc (by decide)
    simp only [MemStorage.getArticles, if_neg hne, Nat.sub_self,
      Nat.zero_mul]
    rw [mem_sort_take _ _ (List.length_filter_le _ _) a, List.mem_filter]
    simp [memCountryMatch, hc]
  · intro hne hc a
    simp only [MemStorage.getArticles, if_neg hne, Nat.sub_self,
      Nat.zero_mul]
    rw [mem_sort_take _ _ (List.length_filter_le _ _) a, List.mem_filter]
    simp [memCountryMatch, hc]
  · intro a
    simp only [MemStorage.getArticles, Nat.sub_self, Nat.zero_mul]
    exact mem_sort_take _ _ (Nat.le_refl _) a
  · apply List.Pairwise.sublist
      (List.Sublist.trans (List.take_sublist _ _) (List.drop_sublist _ _))
    exact sortByCreatedAtDesc_pairwise _

/-- Witness for C4 at concrete inputs: the filter `GLOBAL` on a store
holding one `GLOBAL-TRENDING` article, and the filter `us` on the same
store. -/
theorem c4_country_filter_witness :
    (trendingArticle ∈
        (MemStorage.getArticles ⟨[trendingArticle], 2⟩ (some "GLOBAL") 1 1).1
      ↔ trendingArticle ∈ [trendingArticle]
        ∧ (jsToUpperCase trendingArticle.country = "GLOBAL"
           ∨ jsToUpperCase trendingArticle.country = "GLOBAL-TRENDING"))
    ∧ (trendingArticle ∈
        (MemStorage.getArticles ⟨[trendingArticle], 2⟩ (some "us") 1 1).1
      ↔ trendingArticle ∈ [trendingArticle]
        ∧ jsToUpperCase trendingArticle.country = jsToUpperCase "us") :=
  ⟨(c4_country_filter ⟨[trendingArticle], 2⟩ "GLOBAL").1 (by decide)
     trendingArticle,
   (c4_country_filter ⟨[trendingArticle], 2⟩ "us").2.1 (by decide)
     (by decide) trendingArticle⟩

/-- Counterexample to C4 as stated: the filter value `"global"` is not
`"GLOBAL"`, so by the claim it should match the stored country exactly but
case-insensitively — excluding a `GLOBAL-TRENDING` article — yet
`getArticles` returns that article, because the code upper-cases the
filter before comparing it with `"GLOBAL"`. -/
theorem c4_country_filter_counterexample :
    (MemStorage.getArticles ⟨[trendingArticle], 2⟩ (some "global") 1 30).1
      = [trendingArticle]
    ∧ "global" ≠ "GLOBAL"
    ∧ jsToUpperCase trendingArticle.country ≠ jsToUpperCase "global" := by
  decide

/-- C8: `MemStorage.getArticles` applies the `(page-1)*pageSize` offset
and the `pageSize` limit to the `createdAt`-descending order and reports
the number of matching articles; the route reports `totalPages` as
`Math.ceil(totalCount / pageSize)`, the (unique) value whose product with
`pageSize` lies in `[totalCount, totalCount + pageSize)`; with 65 articles
and page size 30, page 1 holds 30 items, page 3 holds 5, and there are 3
pages. -/
theorem c8_pagination (st : MemStorage) (page pageSize : Nat)
    (hk : 0 < pageSize) :
    (st.getArticles none page pageSize).1
      = ((sortByCreatedAtDesc st.articles).drop
          ((page - 1) * pageSize)).take pageSize
    ∧ (st.getArticles none page pageSize).2 = st.articles.length
    ∧ (articlesRoute page pageSize
        (.ok (st.getArticles none page pageSize).1
          (st.getArticles none page pageSize).2)).pagination.totalPages
        = natCeilDiv st.articles.length pageSize
    ∧ st.articles.length ≤ natCeilDiv st.articles.length pageSize * pageSize
    ∧ natCeilDiv st.articles.length pageSize * pageSize
        < st.articles.length + pageSize
    ∧ (st.getArticles none page pageSize).1.Pairwise
        (fun x y => y.createdAt ≤ x.createdAt)
    ∧ (store65.getArticles none 1 30).1.length = 30
    ∧ natCeilDiv (store65.getArticles none 1 30).2 30 = 3
    ∧ (store65.getArticles none 3 30).1.length = 5 := by
  refine ⟨rfl, rfl, rfl, (natCeilDiv_spec _ _ hk).1,
    (natCeilDiv_spec _ _ hk).2, ?_, ?_, ?_, ?_⟩
  · apply List.Pairwise.sublist
      (List.Sublist.trans (List.take_sublist _ _) (List.drop_sublist _ _))
    exact sortByCreatedAtDesc_pairwise _
  · decide
  · decide
  · decide

/-- Witness for C8 with page size 30 on the 65-article store. -/
theorem c8_pagination_witness :
    (store65.getArticles none 2 30).2 = store65.articles.length :=
  (c8_pagination store65 2 30 (by decide)).2.1

theorem countByUrl_createArticle (st : MemStorage) (ins : InsertArticle)
    (now : Nat) (u : String) :
    countByUrl (st.createArticle ins now).1 u
      = countByUrl st u + if strOrNone ins.sourceUrl = some u then 1 else 0 := by
  simp only [countByUrl, MemStorage.createArticle, List.countP_append,
    List.countP_cons, List.countP_nil]
  by_cases h : strOrNone ins.sourceUrl = some u <;> simp [h]

theorem getArticleByUrl_eq_none (st : MemStorage) (u : String)
    (h : countByUrl st u = 0) : st.getArticleByUrl u = none := by
  rw [MemStorage.getArticleByUrl, List.find?_eq_none]
  rw [countByUrl, List.countP_eq_zero] at h
  exact h

theorem getArticleByUrl_isSome (st : MemStorage) (u : String)
    (h : 0 < countByUrl st u) : (st.getArticleByUrl u).isSome = true := by
  rw [MemStorage.getArticleByUrl, List.find?_isSome]
  rw [countByUrl, List.countP_pos_iff] at h
  exact h

theorem summary_of_mem_updateAi (st : MemStorage) (id : Nat) (c : String)
    (a : Article) (ha : a ∈ (st.updateAi id c).articles) :
    ∃ b ∈ st.articles, a.summary = b.summary := by
  simp only [MemStorage.updateAi, List.mem_map] at ha
  obtain ⟨b, hb, rfl⟩ := ha
  refine ⟨b, hb, ?_⟩
  by_cases h : b.id = id <;> simp [h]

theorem jsOrS_description_ne_empty (d : String) :
    jsOrS d "No summary available" ≠ "" := by
  by_cases h : d = "" <;> simp [jsOrS, h]

/-- C1 (amended): ingestion through `processAndStoreArticles` is
deduplicating-idempotent on a non-empty source url. If the store holds no
article with that `sourceUrl` and none with the effective title, the first
pass stores exactly one article carrying that `sourceUrl` (whether or not
the enhancer succeeds), and a second pass with the same raw article skips
it and leaves the store untouched. -/
theorem c1_seed_url_dedup_idempotent (st : MemStorage) (raw : RawArticle)
    (category country topic : String) (enh1 enh2 : EnhanceResult)
    (t1 t2 : Nat)
    (hurl : raw.url ≠ "")
    (hnourl : countByUrl st raw.url = 0)
    (hnotitle : (st.articles.any fun a =>
        a.title == seedTitle raw category topic) = false) :
    countByUrl (processOne st raw category country topic enh1 t1) raw.url = 1
    ∧ processOne (processOne st raw category country topic enh1 t1) raw
        category country topic enh2 t2
      = processOne st raw category country topic enh1 t1 := by
  have hfind : st.getArticleByUrl raw.url = none :=
    getArticleByUrl_eq_none st raw.url hnourl
  have hd1 : dedupExists st raw (seedTitle raw category topic) = false := by
    simp [dedupExists, hurl, hfind, hnotitle]
  have hcount1 :
      countByUrl (processOne st raw category country topic enh1 t1) raw.url
        = 1 := by
    cases enh1 <;>
      simp [processOne, hd1, countByUrl_updateAi, countByUrl_createArticle,
        strOrNone, hurl, hnourl]
  refine ⟨hcount1, ?_⟩
  have hsome :
      ((processOne st raw category country topic enh1 t1).getArticleByUrl
        raw.url).isSome = true :=
    getArticleByUrl_isSome _ _ (by omega)
  have hd2 : dedupExists (processOne st raw category country topic enh1 t1)
      raw (seedTitle raw category topic) = true := by
    simp [dedupExists, hurl, hsome]
  generalize hst1 : processOne st raw category country topic enh1 t1 = st1
    at hd2 ⊢
  simp [processOne, hd2]

/-- Witness for the amended theorem of C1: an empty store, a url-carrying raw
article, a succeeding first enhancement and a failing second one. -/
theorem c1_seed_url_dedup_idempotent_witness :
    countByUrl (processOne emptyStore rawWithUrl "general" "US" ""
        (.success "T" "C" "S") 1) rawWithUrl.url = 1
    ∧ processOne (processOne emptyStore rawWithUrl "general" "US" ""
          (.success "T" "C" "S") 1) rawWithUrl "general" "US" "" .failure 2
      = processOne emptyStore rawWithUrl "general" "US" ""
          (.success "T" "C" "S") 1 :=
  c1_seed_url_dedup_idempotent emptyStore rawWithUrl "general" "US" ""
    (.success "T" "C" "S") .failure 1 2 (by decide) (by decide) (by decide)

/-- Counterexample to C1 as stated: the batch ingestion endpoint performs
no duplicate check, so submitting the same url-carrying raw article twice
leaves two stored articles with that `sourceUrl`, not one. -/
theorem c1_batch_no_dedup_counterexample :
    countByUrl
      (batchHandler
        (batchHandler emptyStore "NewsAPI"
          [(rawWithUrl, .success "T" "C" "S")] 100).1
        "NewsAPI" [(rawWithUrl, .success "T" "C" "S")] 200).1
      rawWithUrl.url = 2 := by
  decide

/-- C3: when the dedup gate passes and `generateArticleContent` fails, the
fallback of `processAndStoreArticles` still stores exactly one article:
its summary is the raw description, or `"No summary available"` when the
description is absent — never empty — and its `aiEnhancedContent` is the
raw content (falling back to the description, then to a placeholder) with
a trailing `[+N chars]` marker stripped and whitespace trimmed. The
fallback is total: it never raises. -/
theorem c3_enhancer_failure_fallback (st : MemStorage) (raw : RawArticle)
    (category country topic : String) (now : Nat)
    (hwf : ∀ a ∈ st.articles, a.id < st.currentArticleId)
    (hdedup : dedupExists st raw (seedTitle raw category topic) = false) :
    ∃ a : Article,
      (processOne st raw category country topic .failure now).articles
        = st.articles ++ [a]
      ∧ a.summary = jsOrS raw.description "No summary available"
      ∧ a.summary ≠ ""
      ∧ a.aiEnhancedContent = some (cleanContent (jsOrS raw.content
          (jsOrS raw.description "Article content unavailable"))) := by
  simp only [processOne]
  rw [hdedup]
  simp only [Bool.false_eq_true, if_false]
  rw [createArticle_updateAi st _ now _ hwf]
  exact ⟨_, rfl, rfl, jsOrS_description_ne_empty _, rfl⟩

/-- Witness for C3: the enhancer fails on a fresh raw article whose
content carries a truncation marker. -/
theorem c3_enhancer_failure_fallback_witness :
    ∃ a : Article,
      (processOne emptyStore rawNoUrl "general" "US" "" .failure 7).articles
        = emptyStore.articles ++ [a]
      ∧ a.summary = jsOrS rawNoUrl.description "No summary available"
      ∧ a.summary ≠ ""
      ∧ a.aiEnhancedContent = some (cleanContent (jsOrS rawNoUrl.content
          (jsOrS rawNoUrl.description "Article content unavailable"))) :=
  c3_enhancer_failure_fallback emptyStore rawNoUrl "general" "US" "" 7
    (by decide) (by decide)

/-- C5 (amended): every article stored by the seeding pipeline
`processAndStoreArticles` keeps the non-empty-summary store invariant,
provided a successful enhancement carries a non-empty summary (the success
path stores the summary of the enhancer verbatim). The batch endpoint is
excluded: it does not guarantee this. -/
theorem c5_seed_summaries_nonempty (st : MemStorage) (raw : RawArticle)
    (category country topic : String) (enh : EnhanceResult) (now : Nat)
    (hold : ∀ a ∈ st.articles, a.summary ≠ "")
    (henh : ∀ et ac s, enh = .success et ac s → s ≠ "") :
    ∀ a ∈ (processOne st raw category country topic enh now).articles,
      a.summary ≠ "" := by
  intro a ha
  by_cases hd : dedupExists st raw (seedTitle raw category topic) = true
  · simp only [processOne] at ha
    rw [hd] at ha
    simp only [if_true] at ha
    exact hold a ha
  · rw [Bool.not_eq_true] at hd
    simp only [processOne] at ha
    rw [hd] at ha
    simp only [Bool.false_eq_true, if_false] at ha
    cases enh with
    | success et ac s =>
        obtain ⟨b, hb, hsum⟩ := summary_of_mem_updateAi _ _ _ a ha
        rw [hsum]
        simp only [MemStorage.createArticle, List.mem_append,
          List.mem_singleton] at hb
        rcases hb with hb | rfl
        · exact hold b hb
        · exact henh et ac s rfl
    | failure =>
        obtain ⟨b, hb, hsum⟩ := summary_of_mem_updateAi _ _ _ a ha
        rw [hsum]
        simp only [MemStorage.createArticle, List.mem_append,
          List.mem_singleton] at hb
        rcases hb with hb | rfl
        · exact hold b hb
        · exact jsOrS_description_ne_empty _

/-- Witness for the amended theorem of C5: the single article stored by the
failing-enhancer pass over an empty store has a non-empty summary. -/
theorem c5_seed_summaries_nonempty_witness :
    ((processOne emptyStore rawNoDescription "general" "US" "" .failure
        3).articles.getD 0 blankArticle).summary ≠ "" :=
  c5_seed_summaries_nonempty emptyStore rawNoDescription "general" "US" ""
    .failure 3 (by decide) (fun _ _ _ h => nomatch h) _ (by decide)

/-- Counterexample to C5 as stated: the batch ingestion endpoint stores
`summary = description || ""`, so a raw article without a description is
persisted with an empty summary. -/
theorem c5_batch_empty_summary_counterexample :
    ((batchHandler emptyStore "NewsAPI"
        [(rawNoDescription, .success "T" "C" "S")] 5).1.articles.map
      Article.summary) = [""] := by
  decide

/-- C6: with an absent url the dedup gate falls back to an exact,
case-sensitive title match: a stored article with exactly the effective
title blocks ingestion (no new article); with neither a url nor a title
match, the gate reports the article as new and exactly one article is
created. -/
theorem c6_title_fallback_dedup (st : MemStorage) (raw : RawArticle)
    (category country topic : String) (enh : EnhanceResult) (now : Nat)
    (hurl : raw.url = "") :
    ((st.articles.any fun a => a.title == seedTitle raw category topic)
        = true →
      processOne st raw category country topic enh now = st)
    ∧ ((st.articles.any fun a => a.title == seedTitle raw category topic)
        = false →
      (processOne st raw category country topic enh now).articles.length
        = st.articles.length + 1) := by
  constructor
  · intro htitle
    have hd : dedupExists st raw (seedTitle raw category topic) = true := by
      simp [dedupExists, hurl, htitle]
    simp [processOne, hd]
  · intro htitle
    have hd : dedupExists st raw (seedTitle raw category topic) = false := by
      simp [dedupExists, hurl, htitle]
    cases enh <;>
      simp [processOne, hd, MemStorage.updateAi, MemStorage.createArticle]

/-- Witness for C6: a title hit on a one-article store creates nothing; a
miss over the empty store creates exactly one article. -/
theorem c6_title_fallback_dedup_witness :
    processOne titledStore rawNoUrl "general" "US" "" .failure 4
      = titledStore
    ∧ (processOne emptyStore rawNoUrl "general" "US" ""
        (.success "T" "C" "S") 4).articles.length
      = emptyStore.articles.length + 1 :=
  ⟨(c6_title_fallback_dedup titledStore rawNoUrl "general" "US" "" .failure 4
      (by decide)).1 (by decide),
   (c6_title_fallback_dedup emptyStore rawNoUrl "general" "US" ""
      (.success "T" "C" "S") 4 (by decide)).2 (by decide)⟩

/-- Rotation of the News-API scheduler: over a run of interval firings
spaced one rate-limit interval apart, every tick fires, and the issued
countries walk the rotation from the starting cursor, wrapping modulo the
rotation length — independently of the fetch outcomes. -/
theorem runTicks_rotation (n : Nat) :
    ∀ (start : Nat) (st : FetchState) (ticks : List (Nat × FetchOutcome)),
      ticks.map Prod.fst = regularTimes start n →
      st.currentCountryIndex < ALL_COUNTRIES.length →
      st.lastFetchAt + 60000 ≤ start →
      (runTicks st ticks).2 = rotationFrom st.currentCountryIndex n := by
  induction n with
  | zero =>
      intro start st ticks hts _ _
      cases ticks with
      | nil => simp [runTicks, rotationFrom]
      | cons p rest => simp [regularTimes] at hts
  | succ n ih =>
      intro start st ticks hts hidx hlast
      cases ticks with
      | nil => simp [regularTimes] at hts
      | cons p rest =>
          obtain ⟨t, o⟩ := p
          rw [List.map_cons, regularTimes] at hts
          injection hts with ht hrest
          have ht2 : t = start := by simpa using ht
          rw [ht2]
          have hcond : 60000 ≤ start - st.lastFetchAt := by omega
          have hL : 0 < ALL_COUNTRIES.length := by decide
          have hrec := ih (start + 60000)
            ⟨start, (st.currentCountryIndex + 1) % ALL_COUNTRIES.length⟩
            rest hrest (Nat.mod_lt _ hL) (Nat.le_refl _)
          simp only [runTicks, newsApiTick, if_pos hcond,
            Option.toList_some, List.singleton_append]
          rw [hrec, rotationFrom]

/-- C9: over one full rotation of interval firings — one per rate-limit
interval — the News-API scheduler issues exactly one fetch per country of
the fixed rotation, each with a distinct country argument, and the
state transition of the interval callback (cursor advance and `lastFetchAt`
stamp) is identical for failing and succeeding fetches. -/
theorem c9_scheduler_full_rotation (ticks : List (Nat × FetchOutcome))
    (start lastBefore : Nat)
    (hts : ticks.map Prod.fst
      = regularTimes start ALL_COUNTRIES.length)
    (hlast : lastBefore + 60000 ≤ start) :
    (runTicks ⟨lastBefore, 0⟩ ticks).2 = ALL_COUNTRIES
    ∧ ALL_COUNTRIES.Nodup
    ∧ ∀ (st : FetchState) (now : Nat) (o1 o2 : FetchOutcome),
        newsApiTick st now o1 = newsApiTick st now o2 := by
  refine ⟨?_, by decide, fun st now o1 o2 => rfl⟩
  rw [runTicks_rotation ALL_COUNTRIES.length start ⟨lastBefore, 0⟩ ticks hts
    (by show (0 : Nat) < ALL_COUNTRIES.length; decide) hlast]
  show rotationFrom 0 ALL_COUNTRIES.length = ALL_COUNTRIES
  decide

/-- Witness for C9: a full rotation of ticks one minute apart with
alternating fetch failures. -/
theorem c9_scheduler_full_rotation_witness :
    (runTicks ⟨0, 0⟩ (c9Ticks 100000 ALL_COUNTRIES.length)).2
      = ALL_COUNTRIES :=
  (c9_scheduler_full_rotation (c9Ticks 100000 ALL_COUNTRIES.length) 100000 0
    (by decide) (by decide)).1

end GNP
